import Mathlib

/-!
Shallow embedding of the cig-chain blockchain core (src/blockchain) in Lean 4.

Conventions of the embedding:
* SHA-256 is abstracted as a function parameter `hf : HashFun`; the source's
  `hashlib.sha256(...).hexdigest()` becomes `hf` applied to the serialized string.
* RSA-PSS signing and verification are abstracted as parameters `sf : SignFun`
  and `vf : VerifyFun`; private and public keys are strings, and a signature
  value is stored directly as the (hex) string that `TransactionInput.to_dict`
  would render, so `binascii.hexlify` is absorbed into the abstraction.
* `json.dumps(obj, sort_keys=True)` is modelled by a small JSON value type
  `JVal` whose objects keep their fields sorted by key (the smart constructor
  `JVal.mkObj` sorts), rendered with Python's default separators.
* `time.time()` timestamps are passed in explicitly as natural numbers.
* Python dictionaries are association lists with insert-replaces-in-place
  semantics, matching dict key update and iteration order.
* An uncaught Python exception (IndexError, AttributeError, KeyError, a
  non-terminating proof-of-work loop) is modelled by `Option.none`; the
  mining loop additionally takes a fuel argument.
-/

abbrev HashFun := String → String
abbrev SignFun := String → String → String
abbrev VerifyFun := String → String → String → Bool
abbrev PKProvider := String → Option String

/-- Generic lookup in a Python-dict-like association list: first (unique) key wins. -/
def dlookup {α : Type} : List (String × α) → String → Option α
  | [], _ => none
  | (k, v) :: rest, key => if k = key then some v else dlookup rest key

/-- Generic insert in a Python-dict-like association list: replaces an existing
key in place (dicts keep the original insertion position on update), otherwise
appends at the end. -/
def dinsert {α : Type} (key : String) (v : α) : List (String × α) → List (String × α)
  | [] => [(key, v)]
  | (k, w) :: rest => if k = key then (key, v) :: rest else (k, w) :: dinsert key v rest

/-- Character-list core of the lexicographic string comparison. -/
def keyLeAux : List Char → List Char → Bool
  | [], _ => true
  | _ :: _, [] => false
  | c :: cs, d :: ds => if c = d then keyLeAux cs ds else decide (c.toNat < d.toNat)

/-- Boolean lexicographic comparison of strings by code point, as Python
compares `str` keys in `json.dumps(..., sort_keys=True)`. -/
def keyLe (a b : String) : Bool :=
  keyLeAux a.data b.data

/-- JSON values, the codomain of the source's `to_dict` methods. Object fields
are kept sorted by key (see `JVal.mkObj`), matching `sort_keys=True`. -/
inductive JVal : Type
  | jnull : JVal
  | jstr (s : String) : JVal
  | jnum (n : Nat) : JVal
  | jarr (xs : List JVal) : JVal
  | jobj (fields : List (String × JVal)) : JVal
deriving Repr

/-- Insertion step for sorting object fields by key. -/
def insertField (f : String × JVal) : List (String × JVal) → List (String × JVal)
  | [] => [f]
  | g :: gs => if keyLe f.1 g.1 then f :: g :: gs else g :: insertField f gs

/-- Insertion sort of object fields by key, the `sort_keys=True` order. -/
def sortFields : List (String × JVal) → List (String × JVal)
  | [] => []
  | f :: fs => insertField f (sortFields fs)

/-- Smart constructor for JSON objects: stores the fields sorted by key, so
rendering in stored order agrees with `json.dumps(..., sort_keys=True)`. -/
def JVal.mkObj (fields : List (String × JVal)) : JVal :=
  JVal.jobj (sortFields fields)

mutual

/-- Canonical rendering, matching `json.dumps(obj, sort_keys=True)` with the
default separators. -/
def renderJ : JVal → String
  | JVal.jnull => "null"
  | JVal.jstr s => "\"" ++ s ++ "\""
  | JVal.jnum n => toString n
  | JVal.jarr xs => "[" ++ renderArr xs ++ "]"
  | JVal.jobj fs => "\x7b" ++ renderObj fs ++ "\x7d"

/-- List elements joined by Python's default item separator. -/
def renderArr : List JVal → String
  | [] => ""
  | [x] => renderJ x
  | x :: y :: xs => renderJ x ++ ", " ++ renderArr (y :: xs)

/-- Object fields joined by Python's default separators, in stored order. -/
def renderObj : List (String × JVal) → String
  | [] => ""
  | [(k, v)] => "\"" ++ k ++ "\": " ++ renderJ v
  | (k, v) :: g :: fs => "\"" ++ k ++ "\": " ++ renderJ v ++ ", " ++ renderObj (g :: fs)

end

/-- Python truthiness of a JSON value (`if value:`). -/
def jTruthy : JVal → Bool
  | JVal.jnull => false
  | JVal.jstr s => !s.isEmpty
  | JVal.jnum n => n != 0
  | JVal.jarr xs => !xs.isEmpty
  | JVal.jobj fs => !fs.isEmpty

/-- Field access on a JSON object (`data["k"]` / `data.get("k")`); `none` on a
missing key or a non-object. -/
def JVal.getField : JVal → String → Option JVal
  | JVal.jobj fs, k => dlookup fs k
  | _, _ => none

/-- Unspent transaction output record (src/blockchain/utxo.py, class UTXO).
The constructor sets `is_spent = False`; see `UTXO.make`. -/
structure UTXO where
  tx_id : String
  output_index : Nat
  amount : Nat
  owner : String
  is_spent : Bool
deriving Repr, DecidableEq

/-- Constructor `UTXO(tx_id, output_index, amount, owner)`: a fresh record is
always unspent. -/
def UTXO.make (tx_id : String) (output_index amount : Nat) (owner : String) : UTXO :=
  { tx_id := tx_id, output_index := output_index, amount := amount,
    owner := owner, is_spent := false }

/-- Dictionary key `f"{tx_id}:{output_index}"` used by UTXOSet. -/
def utxoKey (tx_id : String) (output_index : Nat) : String :=
  tx_id ++ ":" ++ toString output_index

/-- UTXO store (src/blockchain/utxo.py, class UTXOSet): a dict keyed by
`"tx_id:output_index"`. -/
structure UTXOSet where
  utxos : List (String × UTXO)
deriving Repr, DecidableEq

/-- Source `UTXOSet.add_utxo`: plain dict insert, replacing any existing entry under
the same key. -/
def UTXOSet.add_utxo (us : UTXOSet) (u : UTXO) : UTXOSet :=
  { utxos := dinsert (utxoKey u.tx_id u.output_index) u us.utxos }

/-- Source `UTXOSet.get_utxo`: dict lookup, `None` when the key is absent. -/
def UTXOSet.get_utxo (us : UTXOSet) (tx_id : String) (output_index : Nat) : Option UTXO :=
  dlookup us.utxos (utxoKey tx_id output_index)

/-- Source `UTXOSet.spend_utxo`: if the key is present, set `is_spent = True` on the
stored record and return `True`; otherwise return `False`. -/
def UTXOSet.spend_utxo (us : UTXOSet) (tx_id : String) (output_index : Nat) : Bool × UTXOSet :=
  let key := utxoKey tx_id output_index
  match dlookup us.utxos key with
  | none => (false, us)
  | some u => (true, { utxos := dinsert key { u with is_spent := true } us.utxos })

/-- Source `UTXOSet.get_utxos_for_address`: unspent records owned by the address, in
dict iteration order. -/
def UTXOSet.get_utxos_for_address (us : UTXOSet) (address : String) : List UTXO :=
  (us.utxos.map Prod.snd).filter fun u => u.owner == address && !u.is_spent

/-- Source `UTXOSet.get_balance`: sum of the unspent amounts for the address. -/
def UTXOSet.get_balance (us : UTXOSet) (address : String) : Nat :=
  ((us.get_utxos_for_address address).map UTXO.amount).sum

/-- Transaction input (src/blockchain/transaction.py, class TransactionInput).
The signature is stored as the hex string its `to_dict` renders. -/
structure TransactionInput where
  tx_id : String
  output_index : Nat
  signature : Option String
deriving Repr, DecidableEq

/-- Source `TransactionInput.to_dict`. -/
def TransactionInput.to_dict (inp : TransactionInput) : JVal :=
  JVal.mkObj
    [("tx_id", JVal.jstr inp.tx_id),
     ("output_index", JVal.jnum inp.output_index),
     ("signature", match inp.signature with
       | some s => JVal.jstr s
       | none => JVal.jnull)]

/-- Source `TransactionInput.from_dict`: requires the keys `tx_id`, `output_index` and
`signature` (a `KeyError` is `none`); a null signature stays unset. -/
def TransactionInput.from_dict (j : JVal) : Option TransactionInput :=
  match j.getField "tx_id", j.getField "output_index", j.getField "signature" with
  | some (JVal.jstr t), some (JVal.jnum i), some (JVal.jstr s) =>
      some { tx_id := t, output_index := i, signature := some s }
  | some (JVal.jstr t), some (JVal.jnum i), some JVal.jnull =>
      some { tx_id := t, output_index := i, signature := none }
  | _, _, _ => none

/-- Transaction output (src/blockchain/transaction.py, class TransactionOutput). -/
structure TransactionOutput where
  amount : Nat
  recipient_address : String
deriving Repr, DecidableEq

/-- Source `TransactionOutput.to_dict`. -/
def TransactionOutput.to_dict (out : TransactionOutput) : JVal :=
  JVal.mkObj
    [("amount", JVal.jnum out.amount),
     ("recipient_address", JVal.jstr out.recipient_address)]

/-- Source `TransactionOutput.from_dict`. -/
def TransactionOutput.from_dict (j : JVal) : Option TransactionOutput :=
  match j.getField "amount", j.getField "recipient_address" with
  | some (JVal.jnum a), some (JVal.jstr r) =>
      some { amount := a, recipient_address := r }
  | _, _ => none

/-- Transaction (src/blockchain/transaction.py, class Transaction). `id` is
`None` until first set; `type` is one of "regular", "coinbase", "contract". -/
structure Transaction where
  id : Option String
  inputs : List TransactionInput
  outputs : List TransactionOutput
  timestamp : Nat
  type : String
  contract_data : Option JVal
deriving Repr

/-- Python renders `None` as the string "None" inside an f-string; this is the
value `f"{tx.id}"` contributes to a UTXO key when `tx.id` was never set. -/
def Transaction.idStr (tx : Transaction) : String :=
  match tx.id with
  | some s => s
  | none => "None"

/-- Source `Transaction.calculate_hash`: SHA-256 (abstracted as `hf`) of the canonical
JSON of inputs, outputs, timestamp and type, plus `contract_data` when it is
set. Note the input dicts include the `signature` field. -/
def Transaction.calculate_hash (hf : HashFun) (tx : Transaction) : String :=
  let base := [("inputs", JVal.jarr (tx.inputs.map TransactionInput.to_dict)),
               ("outputs", JVal.jarr (tx.outputs.map TransactionOutput.to_dict)),
               ("timestamp", JVal.jnum tx.timestamp),
               ("type", JVal.jstr tx.type)]
  let fields := match tx.contract_data with
    | some cd => if jTruthy cd then base ++ [("contract_data", cd)] else base
    | none => base
  hf (renderJ (JVal.mkObj fields))

/-- Per-input signing payload of `Transaction.sign_input` and the matching
verification payload of `Transaction.is_valid`: the canonical JSON of
`tx_id` (the transaction hash at the moment of the call), the input index,
the referenced UTXO's owner, and the outputs. -/
def Transaction.signingPayload (hf : HashFun) (tx : Transaction) (input_index : Nat)
    (utxo_owner : String) : String :=
  renderJ (JVal.mkObj
    [("tx_id", JVal.jstr (tx.calculate_hash hf)),
     ("input_index", JVal.jnum input_index),
     ("utxo_owner", JVal.jstr utxo_owner),
     ("outputs", JVal.jarr (tx.outputs.map TransactionOutput.to_dict))])

/-- Source `Transaction.sign_input`: look up the referenced UTXO (`False` when
missing), sign the per-input payload with the private key, and store the
signature on that input. An out-of-range index (`IndexError`) is `none`. -/
def Transaction.sign_input (hf : HashFun) (sf : SignFun) (tx : Transaction)
    (input_index : Nat) (private_key : String) (utxo_set : UTXOSet) :
    Option (Bool × Transaction) :=
  match tx.inputs.get? input_index with
  | none => none
  | some inp =>
    match utxo_set.get_utxo inp.tx_id inp.output_index with
    | none => some (false, tx)
    | some utxo =>
      let sg := sf private_key (tx.signingPayload hf input_index utxo.owner)
      let signedInp : TransactionInput := { inp with signature := some sg }
      some (true, { tx with inputs := tx.inputs.set input_index signedInp })

/-- Per-input validation loop of `Transaction.is_valid`: accumulates the input
amount, `none` as soon as an input fails (missing or spent UTXO, no public key
from the provider, failed signature verification — an unset signature raises
inside the `try` and is likewise a failure). -/
def Transaction.sumInputs (hf : HashFun) (vf : VerifyFun) (pk : PKProvider)
    (utxo_set : UTXOSet) (tx : Transaction) :
    Nat → List TransactionInput → Option Nat
  | _, [] => some 0
  | i, inp :: rest =>
    match utxo_set.get_utxo inp.tx_id inp.output_index with
    | none => none
    | some utxo =>
      if utxo.is_spent then none
      else
        match pk utxo.owner with
        | none => none
        | some public_key =>
          match inp.signature with
          | none => none
          | some signature =>
            if vf public_key signature (tx.signingPayload hf i utxo.owner) then
              (Transaction.sumInputs hf vf pk utxo_set tx (i + 1) rest).map
                (fun s => utxo.amount + s)
            else none

/-- Source `Transaction.is_valid`: coinbase transactions are always valid; otherwise
require at least one input and one output, every input referencing an existing
unspent UTXO whose owner's public key verifies the per-input payload, and
input amount at least the output amount. -/
def Transaction.is_valid (hf : HashFun) (vf : VerifyFun) (tx : Transaction)
    (utxo_set : UTXOSet) (pk : PKProvider) : Bool :=
  if tx.type == "coinbase" then true
  else if tx.inputs.isEmpty || tx.outputs.isEmpty then false
  else
    match Transaction.sumInputs hf vf pk utxo_set tx 0 tx.inputs with
    | none => false
    | some input_amount =>
      let output_amount := (tx.outputs.map TransactionOutput.amount).sum
      !(input_amount < output_amount)

/-- Source `Transaction.to_dict`: sets `id` to the current hash when unset (a genuine
mutation of the transaction in the source), then renders all fields; returns
the updated transaction together with the dict. -/
def Transaction.to_dict (hf : HashFun) (tx : Transaction) : Transaction × JVal :=
  let newId := match tx.id with
    | some i => i
    | none => tx.calculate_hash hf
  ({ tx with id := some newId },
   JVal.mkObj
     [("id", JVal.jstr newId),
      ("inputs", JVal.jarr (tx.inputs.map TransactionInput.to_dict)),
      ("outputs", JVal.jarr (tx.outputs.map TransactionOutput.to_dict)),
      ("timestamp", JVal.jnum tx.timestamp),
      ("type", JVal.jstr tx.type),
      ("contract_data", match tx.contract_data with
        | some cd => cd
        | none => JVal.jnull)])

/-- Field assembly of `Transaction.from_dict` once the required keys are
present. -/
def Transaction.fromDictFields (idv : Option String) (inps outs : List JVal)
    (ts : Nat) (ty : String) (cd : Option JVal) : Option Transaction :=
  match inps.mapM TransactionInput.from_dict, outs.mapM TransactionOutput.from_dict with
  | some inputs, some outputs =>
    some { id := idv, inputs := inputs, outputs := outputs, timestamp := ts,
           type := ty,
           contract_data := match cd with
             | some JVal.jnull => none
             | some v => some v
             | none => none }
  | _, _ => none

/-- Source `Transaction.from_dict`: rebuild a transaction from its dict; a missing
required key (`KeyError`) or ill-typed field is `none`. `contract_data` uses
`.get`, so a missing key or null becomes `None`. -/
def Transaction.from_dict (j : JVal) : Option Transaction :=
  match j.getField "id", j.getField "inputs", j.getField "outputs",
        j.getField "timestamp", j.getField "type" with
  | some idv, some (JVal.jarr inps), some (JVal.jarr outs),
    some (JVal.jnum ts), some (JVal.jstr ty) =>
    match idv with
    | JVal.jstr i =>
      Transaction.fromDictFields (some i) inps outs ts ty (j.getField "contract_data")
    | JVal.jnull =>
      Transaction.fromDictFields none inps outs ts ty (j.getField "contract_data")
    | _ => none
  | _, _, _, _, _ => none

/-- Source `Transaction.create_coinbase(amount, miner_address)`: a no-input,
single-output coinbase transaction with its `id` set to its hash. -/
def Transaction.create_coinbase (hf : HashFun) (timestamp amount : Nat)
    (miner_address : String) : Transaction :=
  let tx : Transaction :=
    { id := none, inputs := [],
      outputs := [{ amount := amount, recipient_address := miner_address }],
      timestamp := timestamp, type := "coinbase", contract_data := none }
  { tx with id := some (tx.calculate_hash hf) }

/-- Body of a block (`block.data`): the genesis block carries an empty
transaction list and a message; mined blocks carry the transaction dicts. -/
structure BlockData where
  transactions : Option (List JVal)
  message : Option String
deriving Repr

/-- Canonical JSON of `block.data`, as `json.dumps` serializes the dict. -/
def BlockData.toJ (d : BlockData) : JVal :=
  JVal.mkObj
    ((match d.transactions with
      | some txs => [("transactions", JVal.jarr txs)]
      | none => []) ++
     (match d.message with
      | some m => [("message", JVal.jstr m)]
      | none => []))

/-- Block (src/blockchain/block.py, class Block). `contract_results`,
`signatures` and `merkle_root` are set after construction and do not enter the
hash. -/
structure Block where
  index : Nat
  previous_hash : String
  timestamp : Nat
  data : BlockData
  nonce : Nat
  hash : String
  contract_results : List (String × JVal)
  signatures : List (String × String)
  merkle_root : Option String
deriving Repr

/-- Source `Block.calculate_hash`: SHA-256 (abstracted as `hf`) of the canonical JSON
of exactly `index`, `previous_hash`, `timestamp`, `data` and `nonce`. -/
def Block.calculate_hash (hf : HashFun) (b : Block) : String :=
  hf (renderJ (JVal.mkObj
    [("index", JVal.jnum b.index),
     ("previous_hash", JVal.jstr b.previous_hash),
     ("timestamp", JVal.jnum b.timestamp),
     ("data", b.data.toJ),
     ("nonce", JVal.jnum b.nonce)]))

/-- Constructor `Block(index, previous_hash, timestamp, data, nonce=0)`:
computes `hash` immediately; the post-hash fields start empty. -/
def Block.init (hf : HashFun) (index : Nat) (previous_hash : String)
    (timestamp : Nat) (data : BlockData) (nonce : Nat) : Block :=
  let pre : Block :=
    { index := index, previous_hash := previous_hash, timestamp := timestamp,
      data := data, nonce := nonce, hash := "",
      contract_results := [], signatures := [], merkle_root := none }
  { pre with hash := Block.calculate_hash hf pre }

/-- The proof-of-work target `'0' * difficulty`. -/
def powTarget (difficulty : Nat) : String :=
  String.mk (List.replicate difficulty '0')

/-- Source `Block.mine_block(difficulty)`: increment the nonce and recompute the hash
until the hash begins with `difficulty` leading zeros. The source loop is
unbounded; here `fuel` bounds the iterations and exhaustion is `none`. -/
def Block.mine_block (hf : HashFun) (difficulty : Nat) : Nat → Block → Option Block
  | 0, b =>
    if b.hash.take difficulty == powTarget difficulty then some b else none
  | Nat.succ fuel, b =>
    if b.hash.take difficulty == powTarget difficulty then some b
    else
      let b' : Block := { b with nonce := b.nonce + 1 }
      Block.mine_block hf difficulty fuel { b' with hash := Block.calculate_hash hf b' }

/-- Call record of the smart-contract engine. The engine itself (dynamic
compilation and per-contract state, src/blockchain/smart_contract.py) is
modelled as the log of `deploy_contract` and `execute` calls it receives; no
property below depends on its internal behaviour. -/
inductive EngineEvent : Type
  | deployContract (code owner init_params : Option JVal) : EngineEvent
  | execute (contract_id method params sender : Option JVal) : EngineEvent
deriving Repr

abbrev Engine := List EngineEvent

/-- Result value stored by `Block.execute_smart_contracts`; the engine's return
value is abstracted (no transaction dict produced by `Transaction.to_dict`
carries the `contract_id`/`method` keys this path requires, so the value is
never constructed by the operations modelled here). -/
def engineResult : JVal := JVal.jnull

/-- Iteration core of `Block.execute_smart_contracts`. -/
def executeSmartContractsLoop : Nat → List JVal → Block → Engine → Block × Engine
  | _, [], b, engine => (b, engine)
  | i, j :: rest, b, engine =>
    let isContract := match j.getField "type" with
      | some (JVal.jstr t) => t == "contract"
      | _ => false
    if !isContract then
      executeSmartContractsLoop (i + 1) rest b engine
    else
      let cid := j.getField "contract_id"
      let mth := j.getField "method"
      if !(match cid with | some v => jTruthy v | none => false) ||
         !(match mth with | some v => jTruthy v | none => false) then
        executeSmartContractsLoop (i + 1) rest b engine
      else
        let params := match j.getField "params" with
          | some v => some v
          | none => some (JVal.mkObj [])
        let sender := j.getField "from"
        let txId := match j.getField "id" with
          | some (JVal.jstr s) => s
          | _ => "tx_" ++ toString i
        let b' : Block :=
          { b with contract_results := dinsert txId engineResult b.contract_results }
        executeSmartContractsLoop (i + 1) rest b'
          (engine ++ [EngineEvent.execute cid mth params sender])

/-- Source `Block.execute_smart_contracts`: iterate the transaction dicts, and for
each dict of type "contract" with truthy `contract_id` and `method`, invoke
the engine and store the result under the dict's `id` (or `tx_<index>`). -/
def Block.execute_smart_contracts (b : Block) (engine : Engine) : Block × Engine :=
  match b.data.transactions with
  | none => (b, engine)
  | some txs => executeSmartContractsLoop 0 txs b engine

/-- Validator registry of `ProofOfStake` (src/blockchain/consensus.py):
`address -> stake`, with the fields `mine_pending_transactions` relies on. -/
structure PoSState where
  validators : List (String × Nat)
  last_block_time : Nat
  min_stake : Nat
deriving Repr

/-- Source `ProofOfStake.validate_block`: the producer must be registered and the
block hash must match its recomputed value. -/
def PoSState.validate_block (hf : HashFun) (st : PoSState) (b : Block)
    (validator_address : String) : Bool :=
  if (dlookup st.validators validator_address).isNone then false
  else b.hash == b.calculate_hash hf

/-- Delegate registry of `DelegatedProofOfStake` (src/blockchain/consensus.py). -/
structure DPoSState where
  delegates : List (String × Nat)
  active_delegates : List String
  delegate_count : Nat
  round : Nat
deriving Repr

/-- Source `DelegatedProofOfStake.validate_block`: the producer must be an active
delegate and the block hash must match its recomputed value. -/
def DPoSState.validate_block (hf : HashFun) (st : DPoSState) (b : Block)
    (delegate_address : String) : Bool :=
  if !st.active_delegates.contains delegate_address then false
  else b.hash == b.calculate_hash hf

/-- The consensus strategy owned by a blockchain: one of the three variants
its constructor accepts. -/
inductive ConsensusState : Type
  | pow : ConsensusState
  | pos (st : PoSState) : ConsensusState
  | dpos (st : DPoSState) : ConsensusState
deriving Repr

/-- State of `PracticalByzantineFaultTolerance` (src/blockchain/consensus.py).
Python sets are duplicate-free lists; the message dicts map a block hash to
the set of validators that sent the message. -/
structure PBFTState where
  validators : List String
  min_validators : Nat
  current_view : Nat
  primary : Option String
  prepared_messages : List (String × List String)
  committed_messages : List (String × List String)
deriving Repr

/-- Fresh PBFT instance. -/
def PBFTState.init : PBFTState :=
  { validators := [], min_validators := 4, current_view := 0, primary := none,
    prepared_messages := [], committed_messages := [] }

/-- Set insertion (`set.add`): no duplicates. -/
def setAdd (v : String) (l : List String) : List String :=
  if v ∈ l then l else l ++ [v]

/-- Insertion step for sorting validator addresses. -/
def insertStr (a : String) : List String → List String
  | [] => [a]
  | b :: bs => if keyLe a b then a :: b :: bs else b :: insertStr a bs

/-- Source `sorted(...)` on a list of addresses. -/
def sortStrs : List String → List String
  | [] => []
  | a :: as_ => insertStr a (sortStrs as_)

/-- Source `PracticalByzantineFaultTolerance._update_primary`: the sorted validator at
position `current_view mod n`, or `None` without validators. -/
def PBFTState.update_primary (st : PBFTState) : PBFTState :=
  if st.validators.isEmpty then { st with primary := none }
  else
    let sorted := sortStrs st.validators
    { st with primary := sorted.get? (st.current_view % sorted.length) }

/-- Source `PracticalByzantineFaultTolerance.add_validator`. -/
def PBFTState.add_validator (st : PBFTState) (address : String) : Bool × PBFTState :=
  (true, PBFTState.update_primary { st with validators := setAdd address st.validators })

/-- Source `PracticalByzantineFaultTolerance.change_view`: advance the view, recompute
the primary, and clear both message maps. -/
def PBFTState.change_view (st : PBFTState) : PBFTState :=
  PBFTState.update_primary
    { st with current_view := st.current_view + 1,
              prepared_messages := [], committed_messages := [] }

/-- Number of distinct validators that sent a prepare for this hash (zero when
the hash is not in the map). -/
def PBFTState.preparedCount (st : PBFTState) (block_hash : String) : Nat :=
  match dlookup st.prepared_messages block_hash with
  | none => 0
  | some l => l.length

/-- Number of distinct validators that sent a commit for this hash. -/
def PBFTState.committedCount (st : PBFTState) (block_hash : String) : Nat :=
  match dlookup st.committed_messages block_hash with
  | none => 0
  | some l => l.length

/-- Maximum number of faulty validators, `f = (n - 1) // 3`. -/
def PBFTState.f (st : PBFTState) : Nat :=
  (st.validators.length - 1) / 3

/-- Source `PracticalByzantineFaultTolerance.prepare`: record the validator's prepare
for the hash; rejected when the sender is not a validator. -/
def PBFTState.prepare (st : PBFTState) (block_hash validator_address : String) :
    (Bool × String) × PBFTState :=
  if validator_address ∈ st.validators then
    let cur := match dlookup st.prepared_messages block_hash with
      | none => []
      | some l => l
    let cur' := setAdd validator_address cur
    let st' := { st with prepared_messages := dinsert block_hash cur' st.prepared_messages }
    if 2 * st.f + 1 ≤ cur'.length then ((true, "Prepared"), st')
    else ((true, "Prepare recorded"), st')
  else ((false, "Not a validator"), st)

/-- Source `PracticalByzantineFaultTolerance.commit`: rejected when the sender is not
a validator or the hash has fewer than `2f+1` prepares; otherwise record the
commit. -/
def PBFTState.commit (st : PBFTState) (block_hash validator_address : String) :
    (Bool × String) × PBFTState :=
  if validator_address ∈ st.validators then
    if st.preparedCount block_hash < 2 * st.f + 1 then
      ((false, "Not prepared yet"), st)
    else
      let cur := match dlookup st.committed_messages block_hash with
        | none => []
        | some l => l
      let cur' := setAdd validator_address cur
      let st' := { st with committed_messages := dinsert block_hash cur' st.committed_messages }
      if 2 * st.f + 1 ≤ cur'.length then ((true, "Committed"), st')
      else ((true, "Commit recorded"), st')
  else ((false, "Not a validator"), st)

/-- Source `PracticalByzantineFaultTolerance.is_committed`: the hash is in the commit
map with at least `2f+1` distinct validators. -/
def PBFTState.is_committed (st : PBFTState) (block_hash : String) : Bool :=
  match dlookup st.committed_messages block_hash with
  | none => false
  | some l => 2 * st.f + 1 ≤ l.length

/-- An entry of `pending_transactions`: either a `Transaction` object or a
legacy plain dict (as appended by `mine_pending_transactions` for the next
mining reward, and by the CLI front end). -/
inductive PendingItem : Type
  | tx (t : Transaction) : PendingItem
  | legacy (d : JVal) : PendingItem
deriving Repr

/-- Blockchain state (src/blockchain/blockchain.py, class Blockchain). -/
structure Blockchain where
  chain : List Block
  difficulty : Nat
  pending_transactions : List PendingItem
  mining_reward : Nat
  utxo_set : UTXOSet
  engine : Engine
  consensus_type : String
  consensus : ConsensusState
deriving Repr

/-- Source `Blockchain.get_public_key`: an unimplemented placeholder that returns
`None` for every address. -/
def Blockchain.get_public_key (_address : String) : Option String := none

/-- Source `Blockchain.__init__` followed by `create_genesis_block`: builds the
consensus strategy (raising `ValueError` — the `Except.error` — on any type
other than "pow", "pos" or "dpos"), mines or hashes the genesis block, and
seeds the UTXO set with the 1,000,000-unit bootstrap coinbase. The genesis
block's own transaction list is empty. -/
def Blockchain.init (hf : HashFun) (fuel now : Nat) (consensus_type : String)
    (difficulty : Nat) : Option (Except String Blockchain) :=
  let consensus : Option ConsensusState :=
    if consensus_type == "pow" then some ConsensusState.pow
    else if consensus_type == "pos" then
      some (ConsensusState.pos
        { validators := [], last_block_time := now, min_stake := 10 })
    else if consensus_type == "dpos" then
      some (ConsensusState.dpos
        { delegates := [], active_delegates := [], delegate_count := 21, round := 0 })
    else none
  match consensus with
  | none => some (Except.error ("Unsupported consensus type: " ++ consensus_type))
  | some consensus =>
    let genesis0 := Block.init hf 0 "0" now
      { transactions := some [], message := some "Genesis Block" } 0
    let genesisMined : Option Block :=
      if consensus_type == "pow" then Block.mine_block hf difficulty fuel genesis0
      else some { genesis0 with hash := genesis0.calculate_hash hf }
    match genesisMined with
    | none => none
    | some genesis =>
      let genesis_tx := Transaction.create_coinbase hf now 1000000 "GENESIS_ADDRESS"
      let utxo := UTXO.make genesis_tx.idStr 0 1000000 "GENESIS_ADDRESS"
      some (Except.ok
        { chain := [genesis], difficulty := difficulty, pending_transactions := [],
          mining_reward := 100, utxo_set := UTXOSet.add_utxo { utxos := [] } utxo,
          engine := [], consensus_type := consensus_type, consensus := consensus })

/-- Source `Blockchain.add_transaction`: validate against the current UTXO set with
`Blockchain.get_public_key` as the lookup; on success append to the mempool. -/
def Blockchain.add_transaction (hf : HashFun) (vf : VerifyFun) (s : Blockchain)
    (transaction : Transaction) : Bool × Blockchain :=
  if !(transaction.is_valid hf vf s.utxo_set Blockchain.get_public_key) then (false, s)
  else (true, { s with pending_transactions :=
                  s.pending_transactions ++ [PendingItem.tx transaction] })

/-- Source `Blockchain.create_transaction`: append to the mempool unconditionally
(dicts are kept as-is for backward compatibility). -/
def Blockchain.create_transaction (s : Blockchain) (transaction : PendingItem) : Blockchain :=
  { s with pending_transactions := s.pending_transactions ++ [transaction] }

/-- Source `Blockchain.get_balance`. -/
def Blockchain.get_balance (s : Blockchain) (address : String) : Nat :=
  s.utxo_set.get_balance address

/-- Enumerated output application of `process_block_transactions`: each output
becomes a new UTXO under `(tx.id, position)`. -/
def addOutputs (tx : Transaction) : Nat → List TransactionOutput → UTXOSet → UTXOSet
  | _, [], us => us
  | i, out :: rest, us =>
    addOutputs tx (i + 1) rest
      (us.add_utxo (UTXO.make tx.idStr i out.amount out.recipient_address))

/-- Input consumption of `process_block_transactions`: mark every referenced
UTXO spent. -/
def spendInputs : List TransactionInput → UTXOSet → UTXOSet
  | [], us => us
  | inp :: rest, us => spendInputs rest (us.spend_utxo inp.tx_id inp.output_index).2

/-- Contract dispatch of `process_block_transactions` for a validated
transaction of type "contract" with truthy contract data: a "deploy" action
calls `contract_engine.deploy_contract`, a "call" action calls
`contract_engine.execute` (with the default sender). -/
def contractStep (tx : Transaction) (engine : Engine) : Engine :=
  if tx.type == "contract" then
    match tx.contract_data with
    | none => engine
    | some cd =>
      if !jTruthy cd then engine
      else
        match cd.getField "action" with
        | some (JVal.jstr a) =>
          if a == "deploy" then
            engine ++ [EngineEvent.deployContract (cd.getField "code")
              (cd.getField "owner") (cd.getField "init_params")]
          else if a == "call" then
            engine ++ [EngineEvent.execute (cd.getField "contract_id")
              (cd.getField "method") (cd.getField "params") none]
          else engine
        | _ => engine
  else engine

/-- Source `Blockchain.process_block_transactions`: apply the block's transaction
dicts in order to the UTXO set. Coinbase outputs are added without validation;
every other transaction is validated with `Blockchain.get_public_key` as the
public-key lookup, then its inputs are spent, its outputs added, and contract
transactions dispatched to the engine. Returns `False` at the first invalid
transaction, keeping all changes made so far; a malformed dict is `none`. -/
def processTxList (hf : HashFun) (vf : VerifyFun) :
    List JVal → UTXOSet → Engine → Option (Bool × UTXOSet × Engine)
  | [], us, engine => some (true, us, engine)
  | j :: rest, us, engine =>
    match Transaction.from_dict j with
    | none => none
    | some tx =>
      if tx.type == "coinbase" then
        processTxList hf vf rest (addOutputs tx 0 tx.outputs us) engine
      else if !(tx.is_valid hf vf us Blockchain.get_public_key) then
        some (false, us, engine)
      else
        let us := addOutputs tx 0 tx.outputs (spendInputs tx.inputs us)
        processTxList hf vf rest us (contractStep tx engine)

/-- Source `Blockchain.process_block_transactions` on a block: a block without a
`transactions` key validates trivially. -/
def Blockchain.process_block_transactions (hf : HashFun) (vf : VerifyFun)
    (b : Block) (us : UTXOSet) (engine : Engine) : Option (Bool × UTXOSet × Engine) :=
  match b.data.transactions with
  | none => some (true, us, engine)
  | some txs => processTxList hf vf txs us engine

/-- Dict conversion step of `mine_pending_transactions`: `tx.to_dict()` on
each mempool entry, which sets each transaction's `id` in place. A legacy dict
entry has no `to_dict` (`AttributeError`), modelled as `none`. -/
def pendingToDicts (hf : HashFun) :
    List PendingItem → Option (List PendingItem × List JVal)
  | [] => some ([], [])
  | PendingItem.legacy _ :: _ => none
  | PendingItem.tx t :: rest =>
    let (t', j) := t.to_dict hf
    (pendingToDicts hf rest).map fun p => (PendingItem.tx t' :: p.1, j :: p.2)

/-- Legacy reward record appended to the mempool after a successful mine. -/
def rewardDict (miner_address : String) (mining_reward : Nat) : JVal :=
  JVal.mkObj
    [("from", JVal.jstr "SYSTEM"),
     ("to", JVal.jstr miner_address),
     ("amount", JVal.jnum mining_reward)]

/-- Source `Blockchain.mine_pending_transactions`: prepend the reward coinbase to the
mempool contents, build the candidate block on the current tip, run the
consensus step (proof-of-work mining, or validator/delegate validation),
apply the block's transactions, execute its smart contracts, append it and
reset the mempool to the legacy reward record. A consensus or transaction
validation failure returns `False` with the mutations made so far. -/
def Blockchain.mine_pending_transactions (hf : HashFun) (vf : VerifyFun)
    (fuel now : Nat) (miner_address : String) (s : Blockchain) :
    Option (Bool × Blockchain) :=
  let coinbase_tx := Transaction.create_coinbase hf now s.mining_reward miner_address
  match pendingToDicts hf (PendingItem.tx coinbase_tx :: s.pending_transactions) with
  | none => none
  | some (converted, dicts) =>
    let pending' := converted.tail
    match s.chain.getLast? with
    | none => none
    | some tip =>
      let block := Block.init hf s.chain.length tip.hash now
        { transactions := some dicts, message := none } 0
      let consensusStep : Option (Option Block) :=
        if s.consensus_type == "pow" then
          match Block.mine_block hf s.difficulty fuel block with
          | none => none
          | some b => some (some b)
        else if s.consensus_type == "pos" then
          match s.consensus with
          | ConsensusState.pos st =>
            if !(st.validate_block hf block miner_address) then some none
            else some (some { block with hash := block.calculate_hash hf })
          | _ => none
        else if s.consensus_type == "dpos" then
          match s.consensus with
          | ConsensusState.dpos st =>
            if !(st.validate_block hf block miner_address) then some none
            else some (some { block with hash := block.calculate_hash hf })
          | _ => none
        else some (some block)
      match consensusStep with
      | none => none
      | some none => some (false, { s with pending_transactions := pending' })
      | some (some block) =>
        match Blockchain.process_block_transactions hf vf block s.utxo_set s.engine with
        | none => none
        | some (false, us, engine) =>
          some (false, { s with utxo_set := us, engine := engine,
                                pending_transactions := pending' })
        | some (true, us, engine) =>
          let be := block.execute_smart_contracts engine
          some (true, { s with
            chain := s.chain ++ [be.1],
            utxo_set := us, engine := be.2,
            pending_transactions :=
              [PendingItem.legacy (rewardDict miner_address s.mining_reward)] })

/-- Loop body of `Blockchain.is_chain_valid`: for every non-genesis block,
recompute and compare the hash, check the link to the predecessor, and
reapply the block's transactions — on the blockchain's own (live) UTXO set. -/
def chainValidLoop (hf : HashFun) (vf : VerifyFun) :
    Block → List Block → UTXOSet → Engine → Option (Bool × UTXOSet × Engine)
  | _, [], us, engine => some (true, us, engine)
  | prev, cur :: rest, us, engine =>
    if cur.hash != cur.calculate_hash hf then some (false, us, engine)
    else if cur.previous_hash != prev.hash then some (false, us, engine)
    else
      match Blockchain.process_block_transactions hf vf cur us engine with
      | none => none
      | some (false, us, engine) => some (false, us, engine)
      | some (true, us, engine) => chainValidLoop hf vf cur rest us engine

/-- Source `Blockchain.is_chain_valid`: returns the verdict together with the
blockchain state after the call (whose UTXO set and engine the loop mutated). -/
def Blockchain.is_chain_valid (hf : HashFun) (vf : VerifyFun) (s : Blockchain) :
    Option (Bool × Blockchain) :=
  match s.chain with
  | [] => some (true, s)
  | g :: rest =>
    (chainValidLoop hf vf g rest s.utxo_set s.engine).map
      fun r => (r.1, { s with utxo_set := r.2.1, engine := r.2.2 })

/-- Concrete stand-in for SHA-256 in witnesses that mine: prefixing with "00"
is injective and makes every hash satisfy a difficulty-2 target at once. -/
def hashW : HashFun := fun s => "00" ++ s

/-- Concrete stand-in for RSA-PSS verification: a signature verifies exactly
when it matches the message (paired with `signMsg`, which makes the signature
the signed message itself). A wrong message fails, as with RSA-PSS. -/
def verifyEq : VerifyFun := fun _public_key sig msg => sig == msg

/-- Concrete stand-in for RSA-PSS signing, paired with `verifyEq`. -/
def signMsg : SignFun := fun _private_key msg => msg

/-- Concrete public-key lookup for which every address resolves to its owner's
public key (public keys are the addresses themselves under `signMsg`). -/
def pkSelf : PKProvider := fun address => some address

/-- Fallback state for total extraction from `Blockchain.init` results. -/
def emptyChain : Blockchain :=
  { chain := [], difficulty := 0, pending_transactions := [], mining_reward := 0,
    utxo_set := { utxos := [] }, engine := [], consensus_type := "pow",
    consensus := ConsensusState.pow }

/-- Fresh proof-of-work blockchain with difficulty 2 at time 0, under the
concrete hash `hashW` (mining succeeds immediately). -/
def freshPowChain : Blockchain :=
  match Blockchain.init hashW 0 0 "pow" 2 with
  | some (Except.ok s) => s
  | _ => emptyChain

/-- The genesis bootstrap coinbase of `freshPowChain`. -/
def freshGenesisTx : Transaction :=
  Transaction.create_coinbase hashW 0 1000000 "GENESIS_ADDRESS"

/-- Scenario state for C1: a UTXO set holding the unspent genesis output of
owner "A". -/
def c1_utxo_set : UTXOSet := { utxos := [("g:0", UTXO.make "g" 0 1000000 "A")] }

/-- Scenario transaction for C1: one input spending A's UTXO, outputs paying
10 to B with change back to A; not yet signed. -/
def c1_tx : Transaction :=
  { id := none,
    inputs := [{ tx_id := "g", output_index := 0, signature := none }],
    outputs := [{ amount := 10, recipient_address := "B" },
                { amount := 999990, recipient_address := "A" }],
    timestamp := 0, type := "regular", contract_data := none }

/-- The C1 transaction after `sign_input(0, A, utxo_set)`. -/
def c1_signed : Transaction :=
  match Transaction.sign_input id signMsg c1_tx 0 "A" c1_utxo_set with
  | some (_, t) => t
  | none => c1_tx

/-- Unsigned single-input transaction for C4. -/
def c4_unsigned : Transaction :=
  { id := none,
    inputs := [{ tx_id := "g", output_index := 0, signature := none }],
    outputs := [{ amount := 10, recipient_address := "B" }],
    timestamp := 0, type := "regular", contract_data := none }

/-- The C4 transaction with the input's signature set. -/
def c4_signed : Transaction :=
  { c4_unsigned with
    inputs := [{ tx_id := "g", output_index := 0, signature := some "aa" }] }

/-- Regular transaction placed in the mempool for C2: spends the genesis
output of `freshPowChain`, paying 10 to B. -/
def c2_reg : Transaction :=
  { id := none,
    inputs := [{ tx_id := freshGenesisTx.idStr, output_index := 0, signature := none }],
    outputs := [{ amount := 10, recipient_address := "B" }],
    timestamp := 1, type := "regular", contract_data := none }

/-- C2 start state: the fresh chain with `c2_reg` in the mempool (appended by
`create_transaction`, the unvalidated path the source itself uses). -/
def c2_state : Blockchain := freshPowChain.create_transaction (PendingItem.tx c2_reg)

/-- C2 run: mining with the invalid transaction in the mempool. -/
def c2_run : Option (Bool × Blockchain) :=
  Blockchain.mine_pending_transactions hashW verifyEq 0 2 "M" c2_state

/-- C2 post state. -/
def c2_after : Blockchain :=
  match c2_run with
  | some (_, s) => s
  | none => emptyChain

/-- Regular transaction used to instantiate C3 (same shape as the S1 send). -/
def c3_reg : Transaction :=
  { id := none,
    inputs := [{ tx_id := freshGenesisTx.idStr, output_index := 0, signature := none }],
    outputs := [{ amount := 10, recipient_address := "B" }],
    timestamp := 1, type := "regular", contract_data := none }

/-- C5 run: mining the fresh chain with an empty mempool. -/
def c5_run : Option (Bool × Blockchain) :=
  Blockchain.mine_pending_transactions hashW verifyEq 0 1 "M" freshPowChain

/-- C5 post state. -/
def c5_after : Blockchain :=
  match c5_run with
  | some (_, s) => s
  | none => emptyChain

/-- C6 constructor run. -/
def c6_init : Option (Except String Blockchain) := Blockchain.init hashW 0 0 "pow" 2

/-- C6 state. -/
def c6_state : Blockchain :=
  match c6_init with
  | some (Except.ok s) => s
  | _ => emptyChain

/-- The genesis block produced by the C6 run. -/
def c6_genesis : Block :=
  match c6_state.chain with
  | [g] => g
  | _ => Block.init id 0 "0" 0 { transactions := none, message := none } 0

/-- PBFT instance with seven validators, for C7. -/
def pbft7 : PBFTState :=
  (["v1", "v2", "v3", "v4", "v5", "v6", "v7"].foldl
    (fun st a => (st.add_validator a).2) PBFTState.init)

/-- Spent UTXO entry for C8. -/
def c8_set : UTXOSet :=
  { utxos := [("t:0", { tx_id := "t", output_index := 0, amount := 7,
                        owner := "A", is_spent := true })] }

/-- Ledger operations on a UTXO set, for the amended C8 statement. -/
inductive UTXOOp : Type
  | addU (u : UTXO) : UTXOOp
  | spendU (tx_id : String) (output_index : Nat) : UTXOOp

/-- Interpretation of a ledger operation. -/
def applyUTXOOp (us : UTXOSet) : UTXOOp → UTXOSet
  | UTXOOp.addU u => us.add_utxo u
  | UTXOOp.spendU t i => (us.spend_utxo t i).2

/-- Interpretation of a sequence of ledger operations. -/
def applyUTXOOps (us : UTXOSet) (ops : List UTXOOp) : UTXOSet :=
  ops.foldl applyUTXOOp us

/-- C9 genesis block (the loop of `is_chain_valid` never revisits it). -/
def c9_genesis : Block :=
  Block.init id 0 "0" 0 { transactions := some [], message := some "Genesis Block" } 0

/-- C9: dict of a coinbase transaction with id "cb" paying 5 to M, as stored
in the follow-up block. -/
def c9_cbDict : JVal :=
  JVal.mkObj
    [("id", JVal.jstr "cb"),
     ("inputs", JVal.jarr []),
     ("outputs", JVal.jarr
       [JVal.mkObj [("amount", JVal.jnum 5), ("recipient_address", JVal.jstr "M")]]),
     ("timestamp", JVal.jnum 0),
     ("type", JVal.jstr "coinbase"),
     ("contract_data", JVal.jnull)]

/-- C9 block 1, correctly hashed and linked on the genesis block. -/
def c9_block1 : Block :=
  Block.init id 1 c9_genesis.hash 1 { transactions := some [c9_cbDict], message := none } 0

/-- C9 state: the two-block chain where the coinbase output of block 1 has
already been spent in the UTXO set. -/
def c9_state : Blockchain :=
  { chain := [c9_genesis, c9_block1], difficulty := 2, pending_transactions := [],
    mining_reward := 100,
    utxo_set := { utxos := [("cb:0", { tx_id := "cb", output_index := 0, amount := 5,
                                       owner := "M", is_spent := true })] },
    engine := [], consensus_type := "pow", consensus := ConsensusState.pow }

/-- C9 post state. -/
def c9_after : Blockchain :=
  match Blockchain.is_chain_valid id verifyEq c9_state with
  | some (_, s) => s
  | none => emptyChain

/-- Lookup after a dict insert: the inserted key maps to the new value, every
other key is unaffected. -/
theorem dlookup_dinsert {α : Type} (k : String) (v : α) (l : List (String × α))
    (key : String) :
    dlookup (dinsert k v l) key = if k = key then some v else dlookup l key := by
  induction l with
  | nil => simp [dinsert, dlookup]
  | cons p rest ih =>
    obtain ⟨k', w⟩ := p
    by_cases hk : k' = k
    · subst hk
      by_cases hkey : k' = key <;> simp [dinsert, dlookup, hkey]
    · simp only [dinsert, if_neg hk, dlookup, ih]
      by_cases hkey : k' = key
      · subst hkey
        have : ¬ k = k' := fun he => hk he.symm
        simp [this]
      · simp [hkey]

/-- Source `pendingToDicts` preserves the number of mempool entries. -/
theorem pendingToDicts_length (hf : HashFun) :
    ∀ (l c : List PendingItem) (ds : List JVal),
      pendingToDicts hf l = some (c, ds) → c.length = l.length := by
  intro l
  induction l with
  | nil =>
    intro c ds h
    simp only [pendingToDicts, Option.some.injEq, Prod.mk.injEq] at h
    simp [← h.1]
  | cons p rest ih =>
    cases p with
    | legacy d => intro c ds h; simp [pendingToDicts] at h
    | tx t =>
      intro c ds h
      simp only [pendingToDicts, Option.map_eq_some'] at h
      obtain ⟨⟨c0, ds0⟩, hrest, heq⟩ := h
      have hlen := ih c0 ds0 hrest
      have hc : PendingItem.tx (t.to_dict hf).1 :: c0 = c := congrArg Prod.fst heq
      simp [← hc, hlen]

/-- A successful `mine_block` yields a block satisfying the difficulty target
whose non-mining fields are those of the starting block. -/
theorem mine_block_spec (hf : HashFun) (d : Nat) :
    ∀ (fuel : Nat) (b b' : Block), Block.mine_block hf d fuel b = some b' →
      b'.hash.take d = powTarget d ∧ b'.index = b.index ∧
      b'.previous_hash = b.previous_hash ∧ b'.timestamp = b.timestamp ∧
      b'.data = b.data := by
  intro fuel
  induction fuel with
  | zero =>
    intro b b' h
    simp only [Block.mine_block] at h
    split at h
    case isTrue hcond =>
      cases h
      exact ⟨eq_of_beq hcond, rfl, rfl, rfl, rfl⟩
    case isFalse hcond => cases h
  | succ n ih =>
    intro b b' h
    simp only [Block.mine_block] at h
    split at h
    case isTrue hcond =>
      cases h
      exact ⟨eq_of_beq hcond, rfl, rfl, rfl, rfl⟩
    case isFalse hcond => simpa using ih _ _ h

/-- Source `_update_primary` only changes the `primary` field. -/
theorem update_primary_fields (st : PBFTState) :
    (st.update_primary).validators = st.validators ∧
    (st.update_primary).prepared_messages = st.prepared_messages ∧
    (st.update_primary).committed_messages = st.committed_messages := by
  unfold PBFTState.update_primary
  split
  · exact ⟨rfl, rfl, rfl⟩
  · exact ⟨rfl, rfl, rfl⟩

/-- C7: in the PBFT state machine, a commit for a hash with fewer than `2f+1`
distinct prepares is rejected (returning false and leaving the state
unchanged); `is_committed(h)` holds exactly when at least `2f+1` distinct
validators committed `h`; and after `change_view()` no hash is committed. -/
theorem c7_pbft_commit_gate (st : PBFTState) (h v : String)
    (hn : 4 ≤ st.validators.length) :
    (st.preparedCount h < 2 * st.f + 1 →
      (st.commit h v).1.1 = false ∧ (st.commit h v).2 = st) ∧
    (st.is_committed h = true ↔ 2 * st.f + 1 ≤ st.committedCount h) ∧
    (∀ h2 : String, st.change_view.is_committed h2 = false) := by
  refine ⟨?_, ?_, ?_⟩
  · intro hprep
    unfold PBFTState.commit
    by_cases hv : v ∈ st.validators
    · simp [hv, hprep]
    · simp [hv]
  · unfold PBFTState.is_committed PBFTState.committedCount
    cases hc : dlookup st.committed_messages h with
    | none => simp [hc]
    | some l => simp [hc]
  · intro h2
    have hcm : st.change_view.committed_messages = [] := by
      unfold PBFTState.change_view
      exact (update_primary_fields _).2.2
    unfold PBFTState.is_committed
    rw [hcm]
    rfl

/-- Witness for C7: the commit gate, committed-count equivalence and
view-change reset at a concrete seven-validator instance. -/
theorem c7_witness :
    4 ≤ pbft7.validators.length ∧
    ((pbft7.preparedCount "B" < 2 * pbft7.f + 1 →
       (pbft7.commit "B" "v1").1.1 = false ∧ (pbft7.commit "B" "v1").2 = pbft7) ∧
     (pbft7.is_committed "B" = true ↔ 2 * pbft7.f + 1 ≤ pbft7.committedCount "B") ∧
     (∀ h2 : String, pbft7.change_view.is_committed h2 = false)) :=
  ⟨by decide, c7_pbft_commit_gate pbft7 "B" "v1" (by decide)⟩

set_option maxRecDepth 65536

/-- C10: the Blockchain constructor succeeds only for consensus types "pow",
"pos" and "dpos"; every other value raises `ValueError` and no blockchain is
created, while each of the three supported types does construct one. -/
theorem c10_constructor_accepts_only_pow_pos_dpos
    (hf : HashFun) (fuel now : Nat) (ct : String) (d : Nat)
    (hct : ¬(ct = "pow" ∨ ct = "pos" ∨ ct = "dpos")) :
    Blockchain.init hf fuel now ct d =
      some (Except.error ("Unsupported consensus type: " ++ ct)) ∧
    (∃ s, Blockchain.init hashW 0 0 "pow" 2 = some (Except.ok s)) ∧
    (∃ s, Blockchain.init hf fuel now "pos" d = some (Except.ok s)) ∧
    (∃ s, Blockchain.init hf fuel now "dpos" d = some (Except.ok s)) := by
  push_neg at hct
  obtain ⟨h1, h2, h3⟩ := hct
  refine ⟨?_, ⟨_, rfl⟩, ⟨_, rfl⟩, ⟨_, rfl⟩⟩
  unfold Blockchain.init
  simp [beq_eq_false_iff_ne.mpr h1, beq_eq_false_iff_ne.mpr h2,
        beq_eq_false_iff_ne.mpr h3]

/-- Witness for C10 at the consensus type "pbft". -/
theorem c10_witness :
    Blockchain.init hashW 0 0 "pbft" 4 =
      some (Except.error ("Unsupported consensus type: " ++ "pbft")) :=
  (c10_constructor_accepts_only_pow_pos_dpos hashW 0 0 "pbft" 4 (by decide)).1

/-- Counterexample for C8: an entry with `is_spent = true` returns to
`is_spent = false` when `add_utxo` is called with the same
`(tx_id, output_index)`, because the dict insert replaces the entry with a
fresh unspent record. -/
theorem c8_counterexample :
    (c8_set.get_utxo "t" 0).map UTXO.is_spent = some true ∧
    ((c8_set.add_utxo (UTXO.make "t" 0 7 "A")).get_utxo "t" 0).map UTXO.is_spent =
      some false :=
  ⟨rfl, rfl⟩

/-- C8 (amended): once the entry under a key is spent, it stays spent under
`spend_utxo` and under any `add_utxo` whose UTXO has a different key; only
re-adding the same key (as transaction replay in `process_block_transactions`
or `is_chain_valid` can do) replaces it with an unspent record. -/
theorem c8_spent_monotone_without_rekeying
    (us : UTXOSet) (ops : List UTXOOp) (t : String) (i : Nat)
    (hspent : (us.get_utxo t i).map UTXO.is_spent = some true)
    (hops : ∀ u, UTXOOp.addU u ∈ ops → utxoKey u.tx_id u.output_index ≠ utxoKey t i) :
    ((applyUTXOOps us ops).get_utxo t i).map UTXO.is_spent = some true := by
  induction ops generalizing us with
  | nil => simpa [applyUTXOOps] using hspent
  | cons op rest ih =>
    have hstep : ((applyUTXOOp us op).get_utxo t i).map UTXO.is_spent = some true := by
      cases op with
      | addU u =>
        have hne := hops u (List.mem_cons_self _ _)
        simp only [applyUTXOOp, UTXOSet.add_utxo, UTXOSet.get_utxo] at *
        rw [dlookup_dinsert, if_neg hne]
        exact hspent
      | spendU t' i' =>
        simp only [applyUTXOOp, UTXOSet.spend_utxo, UTXOSet.get_utxo] at *
        cases hl : dlookup us.utxos (utxoKey t' i') with
        | none => simpa using hspent
        | some u =>
          simp only [dlookup_dinsert]
          by_cases hk : utxoKey t' i' = utxoKey t i
          · simp [hk]
          · rw [if_neg hk]
            exact hspent
    have hrest : ∀ u, UTXOOp.addU u ∈ rest → utxoKey u.tx_id u.output_index ≠ utxoKey t i :=
      fun u hu => hops u (List.mem_cons_of_mem _ hu)
    simpa [applyUTXOOps] using ih (applyUTXOOp us op) hstep hrest

/-- Witness list of operations for C8: a redundant spend and an add under a
different key. -/
def c8_ops : List UTXOOp := [UTXOOp.spendU "t" 0, UTXOOp.addU (UTXO.make "x" 1 3 "B")]

/-- Witness for C8 (amended) at a concrete spent entry and operation list. -/
theorem c8_witness :
    (c8_set.get_utxo "t" 0).map UTXO.is_spent = some true ∧
    ((applyUTXOOps c8_set c8_ops).get_utxo "t" 0).map UTXO.is_spent = some true :=
  ⟨rfl, c8_spent_monotone_without_rekeying c8_set c8_ops "t" 0 rfl (by
    intro u hu
    simp only [c8_ops, List.mem_cons, List.not_mem_nil, or_false,
      UTXOOp.addU.injEq, reduceCtorEq, false_or] at hu
    subst hu
    decide)⟩

/-- Counterexample for C9: `is_chain_valid` reapplies block transactions on
the live UTXO set, not a scratch one — on a correctly hashed and linked chain
whose block-1 coinbase output has been spent, the call returns true and flips
that entry back to unspent, mutating the blockchain's UTXO set. -/
theorem c9_counterexample :
    (c9_state.utxo_set.get_utxo "cb" 0).map UTXO.is_spent = some true ∧
    (Blockchain.is_chain_valid id verifyEq c9_state).map
      (fun r => (r.1, (r.2.utxo_set.get_utxo "cb" 0).map UTXO.is_spent)) =
      some (true, some false) :=
  ⟨rfl, rfl⟩

/-- C9 (amended): `is_chain_valid` recomputes and compares each non-genesis
block's hash, checks each `previous_hash` link and reapplies transactions, but
on the live UTXO set; the chain and the mempool are left unchanged, while the
UTXO set (and contract engine) may be mutated by the reapplication. -/
theorem c9_chain_valid_preserves_chain_and_mempool
    (hf : HashFun) (vf : VerifyFun) (s : Blockchain) (r : Bool) (s' : Blockchain)
    (h : Blockchain.is_chain_valid hf vf s = some (r, s')) :
    s'.chain = s.chain ∧ s'.pending_transactions = s.pending_transactions := by
  unfold Blockchain.is_chain_valid at h
  split at h
  · cases h
    exact ⟨rfl, rfl⟩
  · rw [Option.map_eq_some'] at h
    obtain ⟨⟨b, us, eng⟩, _, heq⟩ := h
    cases heq
    exact ⟨rfl, rfl⟩

/-- Witness for C9 (amended) at the concrete two-block chain. -/
theorem c9_witness :
    Blockchain.is_chain_valid id verifyEq c9_state = some (true, c9_after) ∧
    (c9_after.chain = c9_state.chain ∧
     c9_after.pending_transactions = c9_state.pending_transactions) :=
  ⟨rfl, c9_chain_valid_preserves_chain_and_mempool id verifyEq c9_state true c9_after rfl⟩

/-- Counterexample for C5: on a successful mine the mempool is not empty — the
call returns true, appends the block, and then appends the legacy reward
record for the next mining reward, so `pending_transactions` holds exactly
that record. -/
theorem c5_counterexample :
    c5_run.map (fun r => (r.1, r.2.chain.length, r.2.pending_transactions)) =
      some (true, 2, [PendingItem.legacy (rewardDict "M" 100)]) ∧
    [PendingItem.legacy (rewardDict "M" 100)] ≠ ([] : List PendingItem) :=
  ⟨rfl, by simp⟩

/-- C5 (amended): whenever `mine_pending_transactions(miner)` returns true,
the new block has been appended to the chain and the former mempool contents
replaced by the single legacy reward record
`{"from": "SYSTEM", "to": miner, "amount": mining_reward}` (so the mempool is
cleared of transactions but is not empty on return). -/
theorem c5_mine_success_appends_and_resets_mempool
    (hf : HashFun) (vf : VerifyFun) (fuel now : Nat) (m : String) (s s' : Blockchain)
    (h : Blockchain.mine_pending_transactions hf vf fuel now m s = some (true, s')) :
    (∃ b, s'.chain = s.chain ++ [b]) ∧
    s'.pending_transactions = [PendingItem.legacy (rewardDict m s.mining_reward)] := by
  simp only [Blockchain.mine_pending_transactions] at h
  split at h
  · simp at h
  · split at h
    · simp at h
    · split at h
      · simp at h
      · simp at h
      · split at h
        · simp at h
        · simp at h
        · rw [Option.some.injEq, Prod.mk.injEq] at h
          rw [← h.2]
          exact ⟨⟨_, rfl⟩, rfl⟩

/-- Witness for C5 (amended): mining the fresh chain. -/
theorem c5_witness :
    Blockchain.mine_pending_transactions hashW verifyEq 0 1 "M" freshPowChain =
      some (true, c5_after) ∧
    ((∃ b, c5_after.chain = freshPowChain.chain ++ [b]) ∧
     c5_after.pending_transactions =
       [PendingItem.legacy (rewardDict "M" freshPowChain.mining_reward)]) :=
  ⟨rfl, c5_mine_success_appends_and_resets_mempool hashW verifyEq 0 1 "M"
    freshPowChain c5_after rfl⟩

/-- Counterexample for C2: mining with an invalid pending transaction returns
false, appends no block and keeps the mempool — but the UTXO set is not the
one from before the call: the mining-reward coinbase UTXO has already been
added (2 entries instead of 1). -/
theorem c2_counterexample :
    c2_state.utxo_set.utxos.length = 1 ∧
    c2_run.map (fun r =>
        (r.1, r.2.chain.length, r.2.pending_transactions.length,
         r.2.utxo_set.utxos.length)) =
      some (false, 1, 1, 2) :=
  ⟨rfl, rfl⟩

/-- C2 (amended): when `mine_pending_transactions(miner)` returns false the
append is aborted — no block is appended and the mempool is not cleared (it
keeps the same number of entries, with transaction ids populated by the dict
conversion) — but the UTXO set is not rolled back: it keeps the coinbase UTXO
and the effects of transactions processed before the failure. -/
theorem c2_mine_failure_aborts_append
    (hf : HashFun) (vf : VerifyFun) (fuel now : Nat) (m : String) (s s' : Blockchain)
    (h : Blockchain.mine_pending_transactions hf vf fuel now m s = some (false, s')) :
    s'.chain = s.chain ∧
    s'.pending_transactions.length = s.pending_transactions.length := by
  simp only [Blockchain.mine_pending_transactions] at h
  split at h
  · simp at h
  · rename_i converted dicts hpd
    have hlen : converted.length = s.pending_transactions.length + 1 :=
      pendingToDicts_length hf _ converted dicts hpd
    have htail : converted.tail.length = s.pending_transactions.length := by
      rw [List.length_tail, hlen]
      omega
    split at h
    · simp at h
    · split at h
      · simp at h
      · rw [Option.some.injEq, Prod.mk.injEq] at h
        rw [← h.2]
        exact ⟨rfl, htail⟩
      · split at h
        · simp at h
        · rw [Option.some.injEq, Prod.mk.injEq] at h
          rw [← h.2]
          exact ⟨rfl, htail⟩
        · simp at h

/-- Witness for C2 (amended): the concrete failing mine. -/
theorem c2_witness :
    Blockchain.mine_pending_transactions hashW verifyEq 0 2 "M" c2_state =
      some (false, c2_after) ∧
    (c2_after.chain = c2_state.chain ∧
     c2_after.pending_transactions.length = c2_state.pending_transactions.length) :=
  ⟨rfl, c2_mine_failure_aborts_append hashW verifyEq 0 2 "M" c2_state c2_after rfl⟩

/-- With the blockchain's public-key lookup (which returns `None` for every
address), the per-input validation loop fails on any non-empty input list. -/
theorem sumInputs_no_pubkey (hf : HashFun) (vf : VerifyFun) (us : UTXOSet)
    (tx : Transaction) (i : Nat) (inp : TransactionInput)
    (rest : List TransactionInput) :
    Transaction.sumInputs hf vf Blockchain.get_public_key us tx i (inp :: rest) = none := by
  unfold Transaction.sumInputs
  cases us.get_utxo inp.tx_id inp.output_index with
  | none => rfl
  | some u =>
    by_cases hs : u.is_spent
    · simp [hs]
    · simp [hs, Blockchain.get_public_key]

/-- C3: `add_transaction` rejects every non-coinbase transaction — including
the S1 scenario's properly signed send of 10 from the genesis owner — because
`Blockchain.get_public_key` is an unimplemented placeholder returning `None`,
so signature verification can never be reached and the mempool is unchanged. -/
theorem c3_add_transaction_rejects_noncoinbase
    (hf : HashFun) (vf : VerifyFun) (s : Blockchain) (tx : Transaction)
    (h : tx.type ≠ "coinbase") :
    Blockchain.add_transaction hf vf s tx = (false, s) := by
  have hbeq : (tx.type == "coinbase") = false := beq_eq_false_iff_ne.mpr h
  have hvalid : tx.is_valid hf vf s.utxo_set Blockchain.get_public_key = false := by
    unfold Transaction.is_valid
    rw [hbeq]
    cases htx : tx.inputs with
    | nil => simp
    | cons a r =>
      cases hout : tx.outputs with
      | nil => simp
      | cons b q =>
        rw [sumInputs_no_pubkey]
        simp
  unfold Blockchain.add_transaction
  rw [hvalid]
  rfl

/-- Witness for C3 at the concrete S1-shaped transaction on the fresh chain. -/
theorem c3_witness :
    c3_reg.type ≠ "coinbase" ∧
    Blockchain.add_transaction hashW verifyEq freshPowChain c3_reg =
      (false, freshPowChain) :=
  ⟨by decide,
   c3_add_transaction_rejects_noncoinbase hashW verifyEq freshPowChain c3_reg (by decide)⟩

/-- C1: a transaction whose single input references an existing unspent UTXO,
signed with the owner's key via `sign_input`, fails `is_valid` even when the
lookup returns the owner's public key: storing the signature changes
`calculate_hash()` (the input dicts embed the signature), so the `tx_id` in
the verification payload differs from the one that was signed and the
signature check fails. -/
theorem c1_signed_transaction_fails_validation :
    Transaction.sign_input id signMsg c1_tx 0 "A" c1_utxo_set = some (true, c1_signed) ∧
    (c1_utxo_set.get_utxo "g" 0).map UTXO.is_spent = some false ∧
    pkSelf "A" = some "A" ∧
    Transaction.is_valid id verifyEq c1_signed c1_utxo_set pkSelf = false :=
  ⟨rfl, rfl, rfl, rfl⟩

/-- C4: setting an input's signature changes `Transaction.calculate_hash()`
(so a transaction's id differs before and after signing), while
`Block.calculate_hash()` depends only on index, previous hash, timestamp,
data and nonce and ignores `hash`, `signatures`, `contract_results` and
`merkle_root`. -/
theorem c4_signature_enters_transaction_hash :
    Transaction.calculate_hash id c4_unsigned ≠ Transaction.calculate_hash id c4_signed ∧
    (∀ (hf : HashFun) (b : Block) (hsh : String) (cr : List (String × JVal))
        (sg : List (String × String)) (mr : Option String),
      Block.calculate_hash hf
          { b with hash := hsh, contract_results := cr, signatures := sg,
                   merkle_root := mr } =
        Block.calculate_hash hf b) :=
  ⟨by decide, fun _ _ _ _ _ _ => rfl⟩

/-- Counterexample for C6: on a freshly constructed proof-of-work blockchain
the genesis block has index 0 and previous hash "0", but its transaction list
is empty — the 1,000,000-unit bootstrap coinbase is not among the block's
transactions (it exists only as a UTXO-set entry). -/
theorem c6_counterexample :
    c6_init = some (Except.ok c6_state) ∧
    c6_genesis.index = 0 ∧ c6_genesis.previous_hash = "0" ∧
    c6_genesis.data.transactions = some [] ∧
    (∀ j : JVal, j ∈ (c6_genesis.data.transactions.getD []) → False) :=
  ⟨rfl, rfl, rfl, rfl, by
    intro j hj
    have he : (c6_genesis.data.transactions.getD []) = ([] : List JVal) := rfl
    rw [he] at hj
    exact (List.not_mem_nil j) hj⟩

/-- C6 (amended): on every freshly constructed blockchain (any of the three
supported consensus types) the single genesis block has index 0, previous
hash "0", the message "Genesis Block" and an empty transaction list — the
1,000,000-unit bootstrap coinbase to GENESIS_ADDRESS is recorded only in the
UTXO set, keyed by that coinbase's id; under proof-of-work the genesis hash
additionally satisfies the difficulty target. -/
theorem c6_genesis_shape
    (hf : HashFun) (fuel now d : Nat) (ct : String) (s : Blockchain)
    (hct : ct = "pow" ∨ ct = "pos" ∨ ct = "dpos")
    (h : Blockchain.init hf fuel now ct d = some (Except.ok s)) :
    ∃ g, s.chain = [g] ∧ g.index = 0 ∧ g.previous_hash = "0" ∧
      g.data.transactions = some [] ∧ g.data.message = some "Genesis Block" ∧
      (ct = "pow" → g.hash.take d = powTarget d) ∧
      s.utxo_set.utxos =
        [(utxoKey (Transaction.create_coinbase hf now 1000000 "GENESIS_ADDRESS").idStr 0,
          UTXO.make (Transaction.create_coinbase hf now 1000000 "GENESIS_ADDRESS").idStr
            0 1000000 "GENESIS_ADDRESS")] := by
  rcases hct with hct | hct | hct
  · subst hct
    simp only [Blockchain.init,
      show (("pow" : String) == "pow") = true from rfl, if_true] at h
    split at h
    case h_1 g hmine => simp at h
    case h_2 om g hmine =>
      obtain ⟨htake, hidx, hprev, hts, hdata⟩ := mine_block_spec hf d fuel _ g hmine
      cases h
      exact ⟨g, rfl, hidx, hprev, by rw [hdata]; rfl, by rw [hdata]; rfl,
        fun _ => htake, rfl⟩
  · subst hct
    simp only [Blockchain.init,
      show (("pos" : String) == "pow") = false from rfl,
      show (("pos" : String) == "pos") = true from rfl,
      Bool.false_eq_true, if_false, if_true] at h
    cases h
    exact ⟨_, rfl, rfl, rfl, rfl, rfl, fun he => absurd he (by decide), rfl⟩
  · subst hct
    simp only [Blockchain.init,
      show (("dpos" : String) == "pow") = false from rfl,
      show (("dpos" : String) == "pos") = false from rfl,
      show (("dpos" : String) == "dpos") = true from rfl,
      Bool.false_eq_true, if_false, if_true] at h
    cases h
    exact ⟨_, rfl, rfl, rfl, rfl, rfl, fun he => absurd he (by decide), rfl⟩

/-- A fresh proof-of-stake blockchain at time 0, under the concrete hash
`hashW`, for the C6 witness. -/
def c6_state_pos : Blockchain :=
  match Blockchain.init hashW 0 0 "pos" 2 with
  | some (Except.ok s) => s
  | _ => emptyChain

/-- Witness for C6 (amended) at concrete constructor runs, one proof-of-work
and one proof-of-stake. -/
theorem c6_witness :
    (Blockchain.init hashW 0 0 "pow" 2 = some (Except.ok c6_state) ∧
     (∃ g, c6_state.chain = [g] ∧ g.index = 0 ∧ g.previous_hash = "0" ∧
       g.data.transactions = some [] ∧ g.data.message = some "Genesis Block" ∧
       ("pow" = "pow" → g.hash.take 2 = powTarget 2) ∧
       c6_state.utxo_set.utxos =
         [(utxoKey (Transaction.create_coinbase hashW 0 1000000 "GENESIS_ADDRESS").idStr 0,
           UTXO.make (Transaction.create_coinbase hashW 0 1000000 "GENESIS_ADDRESS").idStr
             0 1000000 "GENESIS_ADDRESS")])) ∧
    (Blockchain.init hashW 0 0 "pos" 2 = some (Except.ok c6_state_pos) ∧
     (∃ g, c6_state_pos.chain = [g] ∧ g.index = 0 ∧ g.previous_hash = "0" ∧
       g.data.transactions = some [] ∧ g.data.message = some "Genesis Block" ∧
       ("pos" = "pow" → g.hash.take 2 = powTarget 2) ∧
       c6_state_pos.utxo_set.utxos =
         [(utxoKey (Transaction.create_coinbase hashW 0 1000000 "GENESIS_ADDRESS").idStr 0,
           UTXO.make (Transaction.create_coinbase hashW 0 1000000 "GENESIS_ADDRESS").idStr
             0 1000000 "GENESIS_ADDRESS")])) :=
  ⟨⟨rfl, c6_genesis_shape hashW 0 0 2 "pow" c6_state (Or.inl rfl) rfl⟩,
   ⟨rfl, c6_genesis_shape hashW 0 0 2 "pos" c6_state_pos (Or.inr (Or.inl rfl)) rfl⟩⟩
